import Mathlib

/-!
# Verification of the PDF book-viewer core (spread detection, splitting,
# page-processing pipeline, book layout, responsive sizing)

Shallow embedding of the TypeScript core into Lean 4.  JavaScript numbers
are modelled as exact rationals (`ℚ`); pixel dimensions produced by
assigning a float to a canvas dimension (which truncates) or by an explicit
`Math.floor` are modelled with `Int.floor` (the two agree on the
non-negative values that arise here).  Raster handles (`imageData` blob
URLs) are effectful and carry no information used by any property, so they
are not modelled.  Fallible operations (`createCoversFacingLayout` throwing
on fewer than two pages, `processPDF` needing page 1 to exist) return
`Option`.
-/

/-- `PDFProcessingOptions` from the types module: `dpi`, `spreadThreshold`,
`maxWidth`, `maxHeight` are JS numbers, `enableSpreadSplit` a boolean. -/
structure PDFProcessingOptions where
  dpi : ℚ
  spreadThreshold : ℚ
  maxWidth : ℚ
  maxHeight : ℚ
  enableSpreadSplit : Bool
deriving Repr, DecidableEq

/-- `DEFAULT_PROCESSING_OPTIONS`: dpi 200, threshold 1.2, max 1600×1600,
spread splitting enabled. -/
def DEFAULT_PROCESSING_OPTIONS : PDFProcessingOptions :=
  { dpi := 200
    spreadThreshold := 12/10
    maxWidth := 1600
    maxHeight := 1600
    enableSpreadSplit := true }

/-- `SpreadDetectionResult` from the types module. -/
structure SpreadDetectionResult where
  isSpread : Bool
  aspectRatio : ℚ
  recommendedSplit : Bool
  confidence : ℚ
deriving Repr, DecidableEq

/-- `detectSpread(width, height, threshold)`: aspect-ratio classification.
`isSpread = aspectRatio >= threshold`; `recommendedSplit` additionally
requires `aspectRatio >= 1.8`.  Confidence in the spread branch is
`Math.min(1, (aspectRatio - threshold) / (2 - threshold))` — note there is
no lower clamp in that branch; the non-spread branch clamps
`1 - |aspectRatio - 0.7| / 0.7` to `[0,1]`. -/
def detectSpread (width height threshold : ℚ) : SpreadDetectionResult :=
  let aspectRatio := width / height
  let isSpread : Bool := decide (threshold ≤ aspectRatio)
  let confidence : ℚ :=
    if isSpread then
      min 1 ((aspectRatio - threshold) / (2 - threshold))
    else
      let singlePageRatio : ℚ := 7/10
      max 0 (min 1 (1 - |aspectRatio - singlePageRatio| / singlePageRatio))
  { isSpread := isSpread
    aspectRatio := aspectRatio
    recommendedSplit := isSpread && decide ((18:ℚ)/10 ≤ aspectRatio)
    confidence := confidence }

/-- `PageDimensions` returned by `calculateResponsivePageSize`. -/
structure PageDimensions where
  width : ℤ
  height : ℤ
  scale : ℚ
deriving Repr, DecidableEq

/-- `calculateResponsivePageSize(containerWidth, containerHeight,
originalPageWidth, originalPageHeight, isSpreadView, padding)`: subtract
`padding*2` from both container dimensions, halve the usable width in
spread view, take `scale = min(widthScale, heightScale, 1)` and floor the
scaled page dimensions. -/
def calculateResponsivePageSize (containerWidth containerHeight
    originalPageWidth originalPageHeight : ℚ) (isSpreadView : Bool)
    (padding : ℚ) : PageDimensions :=
  let availableWidth := containerWidth - padding * 2
  let availableHeight := containerHeight - padding * 2
  let pageContainerWidth := if isSpreadView then availableWidth / 2 else availableWidth
  let widthScale := pageContainerWidth / originalPageWidth
  let heightScale := availableHeight / originalPageHeight
  let scale := min (min widthScale heightScale) 1
  { width := ⌊originalPageWidth * scale⌋
    height := ⌊originalPageHeight * scale⌋
    scale := scale }

/-- The measured-dimensions branch of the `pageSize` computation in the
book-viewer component: fit a two-page opening into the container (padding
100), pick the width-bound or height-bound candidate, then clamp both axes
to a 300-px minimum before flooring. -/
def bookViewerPageSize (containerWidth containerHeight
    firstPageWidth firstPageHeight : ℚ) : ℤ × ℤ :=
  let bookAspectRatio := firstPageWidth / firstPageHeight
  let padding : ℚ := 100
  let availableWidth := containerWidth - padding
  let availableHeight := containerHeight - padding
  let maxPageWidthByWidth := availableWidth / 2
  let pageHeightByWidth := maxPageWidthByWidth / bookAspectRatio
  let maxPageHeightByHeight := availableHeight
  let pageWidthByHeight := maxPageHeightByHeight * bookAspectRatio
  let p :=
    if pageHeightByWidth ≤ maxPageHeightByHeight then
      (maxPageWidthByWidth, pageHeightByWidth)
    else
      (pageWidthByHeight, maxPageHeightByHeight)
  let finalWidth := max p.1 300
  let finalHeight := max p.2 300
  (⌊finalWidth⌋, ⌊finalHeight⌋)

/-- A source page handle: natural width/height at unit scale (the pdf.js
viewport at `scale = 1`). -/
structure PdfPage where
  width : ℚ
  height : ℚ
deriving Repr, DecidableEq

/-- A rasterization target: final pixel dimensions of the canvas. -/
structure Canvas where
  width : ℤ
  height : ℤ
deriving Repr, DecidableEq

/-- A crop region in unscaled page units. -/
structure CropRegion where
  x : ℚ
  y : ℚ
  width : ℚ
  height : ℚ
deriving Repr, DecidableEq

/-- `renderPageToCanvas(page, options, cropRegion?)`: pixel size of the
produced canvas.  `scale = dpi / 72`; the target size is the (crop or full
page) size at that scale; if either target dimension exceeds
`maxWidth`/`maxHeight` both are multiplied by
`fitRatio = min(maxWidth/targetWidth, maxHeight/targetHeight)` and floored;
otherwise the float targets are truncated by the canvas dimension setter. -/
def renderPageToCanvas (page : PdfPage) (options : PDFProcessingOptions)
    (cropRegion : Option CropRegion) : Canvas :=
  let scale := options.dpi / 72
  match cropRegion with
  | some crop =>
    let targetWidth := crop.width * scale
    let targetHeight := crop.height * scale
    if options.maxWidth < targetWidth ∨ options.maxHeight < targetHeight then
      let widthRatio := options.maxWidth / targetWidth
      let heightRatio := options.maxHeight / targetHeight
      let fitRatio := min widthRatio heightRatio
      { width := ⌊targetWidth * fitRatio⌋, height := ⌊targetHeight * fitRatio⌋ }
    else
      { width := ⌊targetWidth⌋, height := ⌊targetHeight⌋ }
  | none =>
    let targetWidth := page.width * scale
    let targetHeight := page.height * scale
    if options.maxWidth < targetWidth ∨ options.maxHeight < targetHeight then
      let widthRatio := options.maxWidth / targetWidth
      let heightRatio := options.maxHeight / targetHeight
      let fitRatio := min widthRatio heightRatio
      { width := ⌊targetWidth * fitRatio⌋, height := ⌊targetHeight * fitRatio⌋ }
    else
      { width := ⌊targetWidth⌋, height := ⌊targetHeight⌋ }

/-- The two crop regions used by `splitSpreadPage`: left half
`{0, 0, width/2, height}` and right half `{width/2, 0, width/2, height}`. -/
def splitSpreadCrops (page : PdfPage) : CropRegion × CropRegion :=
  let halfWidth := page.width / 2
  ({ x := 0, y := 0, width := halfWidth, height := page.height },
   { x := halfWidth, y := 0, width := halfWidth, height := page.height })

/-- `splitSpreadPage(page, options)`: rasterize the left and right halves
of the page via `renderPageToCanvas` with the two half-page crops. -/
def splitSpreadPage (page : PdfPage) (options : PDFProcessingOptions) :
    Canvas × Canvas :=
  let crops := splitSpreadCrops page
  (renderPageToCanvas page options (some crops.1),
   renderPageToCanvas page options (some crops.2))

/-- `RenderedPage` (the blob-URL `imageData` is an opaque effectful handle
and is not modelled): sequential `pageNumber`, pixel dimensions, the
half-page flags and the source index of a split spread. -/
structure RenderedPage where
  pageNumber : ℕ
  width : ℤ
  height : ℤ
  isLeftHalf : Bool := false
  isRightHalf : Bool := false
  originalSpreadIndex : Option ℕ := none
deriving Repr, DecidableEq

instance : Inhabited RenderedPage := ⟨{ pageNumber := 0, width := 0, height := 0 }⟩

/-- The spread classification inside `processPDF`'s loop: split only if
spread splitting is enabled and the current ratio is at least 1.8× the
cover ratio, or at least the configured threshold and 1.5× the cover
ratio. -/
def pipelineIsSpread (options : PDFProcessingOptions)
    (coverRatio currentRatio : ℚ) : Bool :=
  options.enableSpreadSplit &&
    (decide (coverRatio * (18/10) ≤ currentRatio) ||
      (decide (options.spreadThreshold ≤ currentRatio) &&
        decide (coverRatio * (15/10) ≤ currentRatio)))

/-- One iteration of `processPDF`'s loop body for source page `i`: append
two half-page entries when classified as a spread, otherwise one whole-page
entry; `pageNumber` is always `pages.length + 1` at the moment of append. -/
def processPDFStep (options : PDFProcessingOptions) (coverRatio : ℚ)
    (i : ℕ) (page : PdfPage) (pages : List RenderedPage) :
    List RenderedPage :=
  let currentRatio := page.width / page.height
  if pipelineIsSpread options coverRatio currentRatio then
    let halves := splitSpreadPage page options
    let pages :=
      pages ++ [{ pageNumber := pages.length + 1
                  width := halves.1.width, height := halves.1.height
                  isLeftHalf := true, originalSpreadIndex := some i }]
    pages ++ [{ pageNumber := pages.length + 1
                width := halves.2.width, height := halves.2.height
                isRightHalf := true, originalSpreadIndex := some i }]
  else
    let canvas := renderPageToCanvas page options none
    pages ++ [{ pageNumber := pages.length + 1
                width := canvas.width, height := canvas.height }]

/-- The loop of `processPDF` from source page `i` onward, accumulating the
output list and the sequence of `onProgress` arguments
(`processedCount / totalPages` after each source page). -/
def processPDFLoop (options : PDFProcessingOptions) (coverRatio : ℚ)
    (totalPages : ℕ) : List PdfPage → ℕ → List RenderedPage → List ℚ →
    List RenderedPage × List ℚ
  | [], _, pages, progress => (pages, progress)
  | page :: rest, i, pages, progress =>
    processPDFLoop options coverRatio totalPages rest (i + 1)
      (processPDFStep options coverRatio i page pages)
      (progress ++ [(i : ℚ) / (totalPages : ℚ)])

/-- `processPDF(pdf, options, onProgress)`: fails (getPage(1) rejects) on a
document with no pages; otherwise takes the first page's aspect ratio as
the cover baseline and runs the loop over all pages, returning the ordered
`RenderedPage` list together with the progress values reported in order. -/
def processPDF (doc : List PdfPage) (options : PDFProcessingOptions) :
    Option (List RenderedPage × List ℚ) :=
  match doc with
  | [] => none
  | firstPage :: _ =>
    let coverRatio := firstPage.width / firstPage.height
    some (processPDFLoop options coverRatio doc.length doc 1 [] [])

/-- `cleanupBlobURLs` releases each page's raster handle; for dimension
bookkeeping it is the identity on the modelled fields (the handle itself is
not modelled). -/
def cleanupBlobURLs (_pages : List RenderedPage) : Unit := ()

/-- `CoversFacingLayout` from the types module. -/
structure CoversFacingLayout where
  frontCover : RenderedPage
  backCover : RenderedPage
  innerPages : List RenderedPage
  totalPhysicalPages : ℕ
deriving Repr, DecidableEq

/-- `createCoversFacingLayout(pages)`: throws (here `none`) when fewer than
2 pages; otherwise front cover = first page, back cover = last page,
inner pages = `pages.slice(1, -1)`. -/
def createCoversFacingLayout (pages : List RenderedPage) :
    Option CoversFacingLayout :=
  if pages.length < 2 then none
  else
    some { frontCover := pages.headD default
           backCover := pages.getLastD default
           innerPages := (pages.drop 1).dropLast
           totalPhysicalPages := pages.length }

/-- `arrangeForBookViewer(pages)`: on fewer than 2 pages returns the input
unchanged; otherwise `[backCover, frontCover, ...innerPages]` from the
covers-facing layout. -/
def arrangeForBookViewer (pages : List RenderedPage) : List RenderedPage :=
  if pages.length < 2 then pages
  else
    match createCoversFacingLayout pages with
    | none => pages
    | some layout => layout.backCover :: layout.frontCover :: layout.innerPages

/-- `SpreadPair` from the layout engine; `none` models a `null` (empty)
side. -/
structure SpreadPair where
  id : ℕ
  left : Option RenderedPage
  right : Option RenderedPage
  isCoverSpread : Bool
  isLastSpread : Bool
deriving Repr, DecidableEq

/-- `BookLayout` from the layout engine. -/
structure BookLayout where
  spreads : List SpreadPair
  totalSpreads : ℕ
  totalPages : ℕ
  hasOddPages : Bool
deriving Repr, DecidableEq

/-- The pairing loop of `createBookLayout`: starting at index `i` into a
list of `total` pages, emit one `SpreadPair` per two consecutive pages;
`rightPage = pages[i+1] || null`, `id` counts pairs, `isCoverSpread` iff
`i = 0`, `isLastSpread` iff `i + 2 >= total`. -/
def bookLayoutSpreads (total : ℕ) : ℕ → List RenderedPage → List SpreadPair
  | _, [] => []
  | i, [l] =>
    [{ id := i / 2, left := some l, right := none
       isCoverSpread := i = 0, isLastSpread := total ≤ i + 2 }]
  | i, l :: r :: rest =>
    { id := i / 2, left := some l, right := some r
      isCoverSpread := i = 0, isLastSpread := total ≤ i + 2 } ::
      bookLayoutSpreads total (i + 2) rest

/-- `createBookLayout(pages)`: empty layout for no pages, a single
left-only cover pair for one page, otherwise consecutive pairs
`[0,1],[2,3],...` via the pairing loop. -/
def createBookLayout (pages : List RenderedPage) : BookLayout :=
  if pages.length = 0 then
    { spreads := [], totalSpreads := 0, totalPages := 0, hasOddPages := false }
  else if pages.length = 1 then
    { spreads := [{ id := 0, left := some (pages.headD default), right := none
                    isCoverSpread := true, isLastSpread := true }]
      totalSpreads := 1, totalPages := 1, hasOddPages := true }
  else
    let spreads := bookLayoutSpreads pages.length 0 pages
    { spreads := spreads
      totalSpreads := spreads.length
      totalPages := pages.length
      hasOddPages := pages.length % 2 = 1 }

/-- `getSpreadAtIndex(layout, index)`: `null` when the index is outside
`[0, spreads.length)`, otherwise the pair at that index. -/
def getSpreadAtIndex (layout : BookLayout) (index : ℤ) : Option SpreadPair :=
  if index < 0 ∨ (layout.spreads.length : ℤ) ≤ index then none
  else layout.spreads.get? index.toNat

/-- `findSpreadByPageNumber(layout, pageNumber)`: index of the first pair
whose left or right side carries the page number, `-1` when absent. -/
def findSpreadByPageNumber (layout : BookLayout) (pageNumber : ℕ) : ℤ :=
  match layout.spreads.findIdx?
      (fun s => (s.left.map RenderedPage.pageNumber = some pageNumber) ∨
        (s.right.map RenderedPage.pageNumber = some pageNumber)) with
  | some i => (i : ℤ)
  | none => -1

/-- `flattenForPageFlip(layout)`: concatenate every pair's left then right
side, keeping `null` sides. -/
def flattenForPageFlip (layout : BookLayout) : List (Option RenderedPage) :=
  layout.spreads.flatMap (fun s => [s.left, s.right])

/-- Flip direction between spread indices. -/
inductive FlipDirection where
  | forward
  | backward
deriving Repr, DecidableEq

/-- `calculateFlipDirection(currentSpread, targetSpread)`: `forward` iff
`targetSpread > currentSpread`. -/
def calculateFlipDirection (currentSpread targetSpread : ℤ) : FlipDirection :=
  if currentSpread < targetSpread then .forward else .backward

/-- `FlipAnimationInfo` from the layout engine. -/
structure FlipAnimationInfo where
  fromSpread : SpreadPair
  toSpread : SpreadPair
  direction : FlipDirection
  flippingPage : Option RenderedPage
deriving Repr, DecidableEq

/-- `calculateFlipAnimation(layout, fromIndex, toIndex)`: `null` when
either index is out of bounds; otherwise the two pairs, the flip direction,
and the flipping page (`fromSpread.right` moving forward, `fromSpread.left`
moving backward). -/
def calculateFlipAnimation (layout : BookLayout) (fromIndex toIndex : ℤ) :
    Option FlipAnimationInfo :=
  match getSpreadAtIndex layout fromIndex, getSpreadAtIndex layout toIndex with
  | some fromSpread, some toSpread =>
    let direction := calculateFlipDirection fromIndex toIndex
    some { fromSpread := fromSpread
           toSpread := toSpread
           direction := direction
           flippingPage :=
             if direction = .forward then fromSpread.right else fromSpread.left }
  | _, _ => none

/-! ## Concrete instances used by counterexamples and witnesses -/

/-- A generic rendered page with a given page number. -/
def mkPage (n : ℕ) : RenderedPage := { pageNumber := n, width := 100, height := 100 }

/-- A one-page list for the short-input behaviour of the covers-facing
rearrangement. -/
def soloPage : RenderedPage := mkPage 1

/-- A three-page book layout used to exercise the flip-animation
calculation. -/
def demoLayout : BookLayout := createBookLayout [mkPage 1, mkPage 2, mkPage 3]

/-- The flip-animation record produced by moving from spread 0 to
spread 1 of `demoLayout`. -/
def demoFlip : FlipAnimationInfo :=
  { fromSpread := { id := 0, left := some (mkPage 1), right := some (mkPage 2)
                    isCoverSpread := true, isLastSpread := false }
    toSpread := { id := 1, left := some (mkPage 3), right := none
                  isCoverSpread := false, isLastSpread := true }
    direction := .forward
    flippingPage := some (mkPage 2) }

/-- A two-page document: a 7×10 portrait cover and a 14×10 double-wide
page. -/
def docW : List PdfPage := [⟨7, 10⟩, ⟨14, 10⟩]

/-- Options with unit render scale (dpi 72), huge bounds and spread
splitting disabled. -/
def optsW : PDFProcessingOptions := ⟨72, 12/10, 10000, 10000, false⟩

/-- The same options with spread splitting enabled. -/
def optsS : PDFProcessingOptions := ⟨72, 12/10, 10000, 10000, true⟩

/-- `processPDF docW optsW` output pages (no splitting). -/
def pagesW : List RenderedPage :=
  [{ pageNumber := 1, width := 7, height := 10 },
   { pageNumber := 2, width := 14, height := 10 }]

/-- `processPDF docW optsS` output pages (page 2 split). -/
def pagesS : List RenderedPage :=
  [{ pageNumber := 1, width := 7, height := 10 },
   { pageNumber := 2, width := 7, height := 10, isLeftHalf := true
     originalSpreadIndex := some 2 },
   { pageNumber := 3, width := 7, height := 10, isRightHalf := true
     originalSpreadIndex := some 2 }]

/-- The progress values reported for a two-page document. -/
def progW : List ℚ := [1/2, 2/2]

/-- A five-page flat list for the book-layout witness. -/
def pages5 : List RenderedPage :=
  [mkPage 1, mkPage 2, mkPage 3, mkPage 4, mkPage 5]

/-! ## Claim theorems -/

/-- C2 counterexample: at width 3, height 1 and threshold 5/2 (all in the
claim's domain `w,h>0`, `t>1`), `detectSpread` classifies the page as a
spread but returns confidence −1, outside `[0,1]`: the spread branch has no
lower clamp and `2 - threshold` is negative for thresholds above 2. -/
theorem detectSpread_confidence_escapes_unit_interval :
    ((0:ℚ) < 3 ∧ (0:ℚ) < 1 ∧ (1:ℚ) < 5/2) ∧
    (detectSpread 3 1 (5/2)).isSpread = true ∧
    (detectSpread 3 1 (5/2)).confidence = -1 ∧
    ¬ (0 ≤ (detectSpread 3 1 (5/2)).confidence) := by
  refine ⟨⟨by norm_num, by norm_num, by norm_num⟩, ?_, ?_, ?_⟩ <;>
    norm_num [detectSpread, min_def]

/-- C2 (amended): for `w,h>0` and `t>1`, `detectSpread(w,h,t).isSpread`
iff `w/h ≥ t`; the confidence lies in `[0,1]` whenever `t < 2` (for any
classification) and whenever the page is not classified as a spread (for
any `t`); the bound fails for spread classifications at thresholds above
2, as the counterexample shows. -/
theorem detectSpread_spec (w h t : ℚ) (hw : 0 < w) (hh : 0 < h)
    (ht : 1 < t) :
    ((detectSpread w h t).isSpread = true ↔ t ≤ w / h) ∧
    (t < 2 →
      0 ≤ (detectSpread w h t).confidence ∧ (detectSpread w h t).confidence ≤ 1) ∧
    ((detectSpread w h t).isSpread = false →
      0 ≤ (detectSpread w h t).confidence ∧ (detectSpread w h t).confidence ≤ 1) := by
  have hratio : (detectSpread w h t).isSpread = decide (t ≤ w / h) := rfl
  have hconf : (detectSpread w h t).confidence =
      if decide (t ≤ w / h) then min 1 ((w / h - t) / (2 - t))
      else max 0 (min 1 (1 - |w / h - 7/10| / (7/10))) := rfl
  refine ⟨by rw [hratio]; exact ⟨of_decide_eq_true, decide_eq_true⟩, ?_, ?_⟩
  · intro ht2
    rw [hconf]
    by_cases hsp : t ≤ w / h
    · rw [if_pos (decide_eq_true hsp)]
      constructor
      · exact le_min (by norm_num) (div_nonneg (by linarith) (by linarith))
      · exact min_le_left _ _
    · rw [if_neg (by simpa using hsp)]
      constructor
      · exact le_max_left _ _
      · exact max_le (by norm_num) (min_le_left _ _)
  · intro hns
    rw [hratio] at hns
    rw [hconf, if_neg (by simpa using hns)]
    constructor
    · exact le_max_left _ _
    · exact max_le (by norm_num) (min_le_left _ _)

/-- C2 witness: at width 3, height 2, threshold 1.2 the amended claim's
hypotheses hold and the conclusions evaluate. -/
theorem detectSpread_spec_witness :
    ((detectSpread 3 2 (12/10)).isSpread = true ↔ (12/10 : ℚ) ≤ 3 / 2) ∧
    (0 ≤ (detectSpread 3 2 (12/10)).confidence ∧
      (detectSpread 3 2 (12/10)).confidence ≤ 1) :=
  ⟨(detectSpread_spec 3 2 (12/10) (by norm_num) (by norm_num) (by norm_num)).1,
    (detectSpread_spec 3 2 (12/10) (by norm_num) (by norm_num) (by norm_num)).2.1
      (by norm_num)⟩

/-- C3 counterexample: `arrangeForBookViewer` applied to a single-page
list returns that list unchanged rather than failing: only the underlying
`createCoversFacingLayout` raises the insufficient-pages error. -/
theorem arrangeForBookViewer_single_returns_input :
    arrangeForBookViewer [soloPage] = [soloPage] ∧
    createCoversFacingLayout [soloPage] = none :=
  ⟨rfl, rfl⟩

/-- C3 (amended): on a list of length at least 2 the covers-facing
rearrangement returns `[lastPage, firstPage, pages[1], ..., pages[n-2]]`;
on fewer than 2 pages `arrangeForBookViewer` returns its input unchanged,
while `createCoversFacingLayout` is the operation that fails with the
insufficient-pages condition. -/
theorem arrangeForBookViewer_spec :
    (∀ (a b : RenderedPage) (mid : List RenderedPage),
      arrangeForBookViewer (a :: (mid ++ [b])) = b :: a :: mid) ∧
    (∀ pages : List RenderedPage, pages.length < 2 →
      arrangeForBookViewer pages = pages ∧
      createCoversFacingLayout pages = none) := by
  constructor
  · intro a b mid
    have hlen : ¬ (a :: (mid ++ [b])).length < 2 := by
      simp [List.length_append]
    have hlay : createCoversFacingLayout (a :: (mid ++ [b])) =
        some { frontCover := a, backCover := b, innerPages := mid
               totalPhysicalPages := (a :: (mid ++ [b])).length } := by
      rw [createCoversFacingLayout, if_neg hlen]
      have h1 : (a :: (mid ++ [b])).headD default = a := rfl
      have h2 : (a :: (mid ++ [b])).getLastD default = b := by
        rw [← List.cons_append, List.getLastD_concat]
      have h3 : ((a :: (mid ++ [b])).drop 1).dropLast = mid := by
        simp [List.dropLast_concat]
      rw [h1, h2, h3]
    rw [arrangeForBookViewer, if_neg hlen, hlay]
  · intro pages hlen
    constructor
    · rw [arrangeForBookViewer, if_pos hlen]
    · rw [createCoversFacingLayout, if_pos hlen]

/-- C3 witness: the four-page example `[p1,p2,p3,p4] ↦ [p4,p1,p2,p3]` and
the single-page behaviour, from the amended theorem. -/
theorem arrangeForBookViewer_spec_witness :
    arrangeForBookViewer [mkPage 1, mkPage 2, mkPage 3, mkPage 4] =
      [mkPage 4, mkPage 1, mkPage 2, mkPage 3] ∧
    ([mkPage 9].length < 2 ∧ arrangeForBookViewer [mkPage 9] = [mkPage 9] ∧
      createCoversFacingLayout [mkPage 9] = none) :=
  ⟨arrangeForBookViewer_spec.1 (mkPage 1) (mkPage 4) [mkPage 2, mkPage 3],
    by decide,
    (arrangeForBookViewer_spec.2 [mkPage 9] (by decide)).1,
    (arrangeForBookViewer_spec.2 [mkPage 9] (by decide)).2⟩

/-- C9: the page-fitting function subtracts `2*padding` from both
container dimensions, halves the usable width per page in spread view,
takes `scale = min(usableWidth/pageWidth, usableHeight/pageHeight, 1)`
(hence never exceeds 1), and floors the scaled page dimensions. -/
theorem calculateResponsivePageSize_spec (cw ch pw ph : ℚ) (sv : Bool)
    (p : ℚ) :
    (calculateResponsivePageSize cw ch pw ph sv p).scale =
      min (min ((if sv then (cw - 2 * p) / 2 else cw - 2 * p) / pw)
        ((ch - 2 * p) / ph)) 1 ∧
    (calculateResponsivePageSize cw ch pw ph sv p).scale ≤ 1 ∧
    (calculateResponsivePageSize cw ch pw ph sv p).width =
      ⌊pw * (calculateResponsivePageSize cw ch pw ph sv p).scale⌋ ∧
    (calculateResponsivePageSize cw ch pw ph sv p).height =
      ⌊ph * (calculateResponsivePageSize cw ch pw ph sv p).scale⌋ := by
  refine ⟨?_, ?_, rfl, rfl⟩
  · show min (min ((if sv then (cw - p * 2) / 2 else cw - p * 2) / pw)
        ((ch - p * 2) / ph)) 1 = _
    rw [mul_comm p 2]
  · exact min_le_right _ _

/-- C10: `calculateResponsivePageSize` applies no minimum clamp — when
either container dimension is at most `2*padding` and the page dimensions
are positive, the returned scale, width and height are all ≤ 0; the 300-px
floor lives only in the viewer component's own `pageSize` computation,
which clamps both axes to at least 300. -/
theorem calculateResponsivePageSize_no_min_clamp :
    (∀ (cw ch pw ph : ℚ) (sv : Bool) (p : ℚ),
      (cw ≤ 2 * p ∨ ch ≤ 2 * p) → 0 < pw → 0 < ph →
      (calculateResponsivePageSize cw ch pw ph sv p).scale ≤ 0 ∧
      (calculateResponsivePageSize cw ch pw ph sv p).width ≤ 0 ∧
      (calculateResponsivePageSize cw ch pw ph sv p).height ≤ 0) ∧
    (∀ cw ch fw fh : ℚ,
      300 ≤ (bookViewerPageSize cw ch fw fh).1 ∧
      300 ≤ (bookViewerPageSize cw ch fw fh).2) := by
  constructor
  · intro cw ch pw ph sv p hcase hpw hph
    have hscale : (calculateResponsivePageSize cw ch pw ph sv p).scale =
        min (min ((if sv then (cw - p * 2) / 2 else cw - p * 2) / pw)
          ((ch - p * 2) / ph)) 1 := rfl
    have hs0 : (calculateResponsivePageSize cw ch pw ph sv p).scale ≤ 0 := by
      rw [hscale]
      rcases hcase with hw | hh
      · have haw : (if sv then (cw - p * 2) / 2 else cw - p * 2) ≤ 0 := by
          cases sv <;> simp <;> linarith
        have : (if sv then (cw - p * 2) / 2 else cw - p * 2) / pw ≤ 0 :=
          div_nonpos_iff.mpr (Or.inr ⟨haw, hpw.le⟩)
        calc min (min ((if sv then (cw - p * 2) / 2 else cw - p * 2) / pw)
              ((ch - p * 2) / ph)) 1
            ≤ (if sv then (cw - p * 2) / 2 else cw - p * 2) / pw :=
              le_trans (min_le_left _ _) (min_le_left _ _)
          _ ≤ 0 := this
      · have : (ch - p * 2) / ph ≤ 0 :=
          div_nonpos_iff.mpr (Or.inr ⟨by linarith, hph.le⟩)
        calc min (min ((if sv then (cw - p * 2) / 2 else cw - p * 2) / pw)
              ((ch - p * 2) / ph)) 1
            ≤ (ch - p * 2) / ph :=
              le_trans (min_le_left _ _) (min_le_right _ _)
          _ ≤ 0 := this
    refine ⟨hs0, ?_, ?_⟩
    · exact Int.floor_nonpos (mul_nonpos_of_nonneg_of_nonpos hpw.le hs0)
    · exact Int.floor_nonpos (mul_nonpos_of_nonneg_of_nonpos hph.le hs0)
  · intro cw ch fw fh
    constructor
    · exact Int.le_floor.mpr (by push_cast; exact le_max_right _ _)
    · exact Int.le_floor.mpr (by push_cast; exact le_max_right _ _)

/-- C10 witness: a 60-px-wide container with 40-px padding yields
non-positive scale and dimensions from the fitting function, while the
viewer clamp keeps a degenerate 10×10 container at 300×300. -/
theorem calculateResponsivePageSize_no_min_clamp_witness :
    (((60:ℚ) ≤ 2 * 40 ∨ (800:ℚ) ≤ 2 * 40) ∧ (0:ℚ) < 500 ∧ (0:ℚ) < 700) ∧
    ((calculateResponsivePageSize 60 800 500 700 true 40).scale ≤ 0 ∧
      (calculateResponsivePageSize 60 800 500 700 true 40).width ≤ 0 ∧
      (calculateResponsivePageSize 60 800 500 700 true 40).height ≤ 0) ∧
    (300 ≤ (bookViewerPageSize 10 10 595 842).1 ∧
      300 ≤ (bookViewerPageSize 10 10 595 842).2) :=
  ⟨⟨Or.inl (by norm_num), by norm_num, by norm_num⟩,
    calculateResponsivePageSize_no_min_clamp.1 60 800 500 700 true 40
      (Or.inl (by norm_num)) (by norm_num) (by norm_num),
    calculateResponsivePageSize_no_min_clamp.2 10 10 595 842⟩

/-- C6: splitting a spread page of natural size W×H at dpi D whose halves
stay within the max-dimension bounds produces left and right rasters of
pixel width `⌊(W/2)·(D/72)⌋` and pixel height `⌊H·(D/72)⌋`, with equal
heights; the two crops are `{0,0,W/2,H}` and `{W/2,0,W/2,H}`, which abut
with no overlap or gap and cover the full page height. -/
theorem splitSpreadPage_spec (W H D maxW maxH t : ℚ) (e : Bool)
    (hW : 0 < W) (hH : 0 < H) (hD : 0 < D)
    (hfW : W / 2 * (D / 72) ≤ maxW) (hfH : H * (D / 72) ≤ maxH) :
    (splitSpreadPage ⟨W, H⟩ ⟨D, t, maxW, maxH, e⟩).1.width =
      ⌊W / 2 * (D / 72)⌋ ∧
    (splitSpreadPage ⟨W, H⟩ ⟨D, t, maxW, maxH, e⟩).2.width =
      ⌊W / 2 * (D / 72)⌋ ∧
    (splitSpreadPage ⟨W, H⟩ ⟨D, t, maxW, maxH, e⟩).1.height =
      ⌊H * (D / 72)⌋ ∧
    (splitSpreadPage ⟨W, H⟩ ⟨D, t, maxW, maxH, e⟩).1.height =
      (splitSpreadPage ⟨W, H⟩ ⟨D, t, maxW, maxH, e⟩).2.height ∧
    (splitSpreadCrops ⟨W, H⟩).1 = ⟨0, 0, W / 2, H⟩ ∧
    (splitSpreadCrops ⟨W, H⟩).2 = ⟨W / 2, 0, W / 2, H⟩ ∧
    (splitSpreadCrops ⟨W, H⟩).1.x + (splitSpreadCrops ⟨W, H⟩).1.width =
      (splitSpreadCrops ⟨W, H⟩).2.x ∧
    (splitSpreadCrops ⟨W, H⟩).2.x + (splitSpreadCrops ⟨W, H⟩).2.width = W ∧
    (splitSpreadCrops ⟨W, H⟩).1.height = H ∧
    (splitSpreadCrops ⟨W, H⟩).2.height = H := by
  have hcond : ¬ (maxW < W / 2 * (D / 72) ∨ maxH < H * (D / 72)) := by
    push_neg
    exact ⟨hfW, hfH⟩
  have hleft : (splitSpreadPage ⟨W, H⟩ ⟨D, t, maxW, maxH, e⟩).1 =
      ⟨⌊W / 2 * (D / 72)⌋, ⌊H * (D / 72)⌋⟩ := by
    show renderPageToCanvas ⟨W, H⟩ ⟨D, t, maxW, maxH, e⟩
      (some ⟨0, 0, W / 2, H⟩) = _
    rw [renderPageToCanvas]
    simp only [if_neg hcond]
  have hright : (splitSpreadPage ⟨W, H⟩ ⟨D, t, maxW, maxH, e⟩).2 =
      ⟨⌊W / 2 * (D / 72)⌋, ⌊H * (D / 72)⌋⟩ := by
    show renderPageToCanvas ⟨W, H⟩ ⟨D, t, maxW, maxH, e⟩
      (some ⟨W / 2, 0, W / 2, H⟩) = _
    rw [renderPageToCanvas]
    simp only [if_neg hcond]
  refine ⟨by rw [hleft], by rw [hright], by rw [hleft],
    by rw [hleft, hright], rfl, rfl, by show 0 + W / 2 = W / 2; ring,
    by show W / 2 + W / 2 = W; ring, rfl, rfl⟩

/-- C6 witness: a 1190×842 spread at dpi 72 with 1600×1600 bounds splits
into two 595×842 halves. -/
theorem splitSpreadPage_spec_witness :
    ((0:ℚ) < 1190 ∧ (0:ℚ) < 842 ∧ (0:ℚ) < 72 ∧
      (1190:ℚ) / 2 * (72 / 72) ≤ 1600 ∧ (842:ℚ) * (72 / 72) ≤ 1600) ∧
    (splitSpreadPage ⟨1190, 842⟩ ⟨72, 12/10, 1600, 1600, true⟩).1.width =
      ⌊(1190:ℚ) / 2 * (72 / 72)⌋ ∧
    (splitSpreadPage ⟨1190, 842⟩ ⟨72, 12/10, 1600, 1600, true⟩).1.height =
      (splitSpreadPage ⟨1190, 842⟩ ⟨72, 12/10, 1600, 1600, true⟩).2.height :=
  ⟨⟨by norm_num, by norm_num, by norm_num, by norm_num, by norm_num⟩,
    (splitSpreadPage_spec 1190 842 72 1600 1600 (12/10) true (by norm_num)
      (by norm_num) (by norm_num) (by norm_num) (by norm_num)).1,
    (splitSpreadPage_spec 1190 842 72 1600 1600 (12/10) true (by norm_num)
      (by norm_num) (by norm_num) (by norm_num) (by norm_num)).2.2.2.1⟩

/-- `getSpreadAtIndex` returns `null` exactly on out-of-bounds indices. -/
theorem getSpreadAtIndex_eq_none_iff (layout : BookLayout) (index : ℤ) :
    getSpreadAtIndex layout index = none ↔
      (index < 0 ∨ (layout.spreads.length : ℤ) ≤ index) := by
  rw [getSpreadAtIndex]
  by_cases h : index < 0 ∨ (layout.spreads.length : ℤ) ≤ index
  · rw [if_pos h]
    simp [h]
  · have h' := h
    rw [if_neg h]
    push_neg at h'
    refine iff_of_false ?_ h
    rw [List.get?_eq_none]
    omega

/-- C8: `calculateFlipAnimation` returns no result iff either index is out
of the layout's bounds; a returned record has `direction = forward` iff
`toIndex > fromIndex`, flips `fromSpread.right` when moving forward and
`fromSpread.left` when moving backward, and its spreads are the ones at
the given indices. -/
theorem calculateFlipAnimation_spec (layout : BookLayout)
    (fromIndex toIndex : ℤ) :
    (calculateFlipAnimation layout fromIndex toIndex = none ↔
      (fromIndex < 0 ∨ (layout.spreads.length : ℤ) ≤ fromIndex ∨
        toIndex < 0 ∨ (layout.spreads.length : ℤ) ≤ toIndex)) ∧
    (∀ info, calculateFlipAnimation layout fromIndex toIndex = some info →
      (info.direction = FlipDirection.forward ↔ fromIndex < toIndex) ∧
      info.flippingPage = (if fromIndex < toIndex then info.fromSpread.right
        else info.fromSpread.left) ∧
      getSpreadAtIndex layout fromIndex = some info.fromSpread ∧
      getSpreadAtIndex layout toIndex = some info.toSpread) := by
  constructor
  · rw [calculateFlipAnimation]
    rcases hf : getSpreadAtIndex layout fromIndex with _ | fs
    · have h1 := (getSpreadAtIndex_eq_none_iff layout fromIndex).mp hf
      exact iff_of_true rfl (by tauto)
    · rcases ht : getSpreadAtIndex layout toIndex with _ | ts
      · have h2 := (getSpreadAtIndex_eq_none_iff layout toIndex).mp ht
        exact iff_of_true rfl (by tauto)
      · refine iff_of_false (by simp) ?_
        have h1 : ¬ (fromIndex < 0 ∨ (layout.spreads.length : ℤ) ≤ fromIndex) := by
          rw [← getSpreadAtIndex_eq_none_iff layout fromIndex, hf]
          exact Option.some_ne_none _
        have h2 : ¬ (toIndex < 0 ∨ (layout.spreads.length : ℤ) ≤ toIndex) := by
          rw [← getSpreadAtIndex_eq_none_iff layout toIndex, ht]
          exact Option.some_ne_none _
        tauto
  · intro info hinfo
    rw [calculateFlipAnimation] at hinfo
    rcases hf : getSpreadAtIndex layout fromIndex with _ | fs <;>
      rw [hf] at hinfo
    · exact absurd hinfo (by simp)
    · rcases ht : getSpreadAtIndex layout toIndex with _ | ts <;>
        rw [ht] at hinfo
      · exact absurd hinfo (by simp)
      · simp only [Option.some.injEq] at hinfo
        subst hinfo
        rw [calculateFlipDirection]
        by_cases hdir : fromIndex < toIndex
        · simp [if_pos hdir, hdir]
        · simp [if_neg hdir, hdir]

/-- C8 witness: on the three-page demo layout, flipping from spread 0 to
spread 1 moves forward and turns the right page of spread 0. -/
theorem calculateFlipAnimation_spec_witness :
    calculateFlipAnimation demoLayout 0 1 = some demoFlip ∧
    (demoFlip.direction = FlipDirection.forward ↔ (0:ℤ) < 1) ∧
    demoFlip.flippingPage = (if (0:ℤ) < 1 then demoFlip.fromSpread.right
      else demoFlip.fromSpread.left) :=
  ⟨by decide, ((calculateFlipAnimation_spec demoLayout 0 1).2 demoFlip
      (by decide)).1,
    ((calculateFlipAnimation_spec demoLayout 0 1).2 demoFlip (by decide)).2.1⟩

/-- The pairing loop emits one pair per two pages: `⌈n/2⌉` pairs. -/
theorem bookLayoutSpreads_length (total : ℕ) :
    ∀ (pages : List RenderedPage) (i : ℕ),
      (bookLayoutSpreads total i pages).length = (pages.length + 1) / 2
  | [], _ => by simp [bookLayoutSpreads]
  | [_], _ => by simp [bookLayoutSpreads]
  | _ :: _ :: rest, i => by
    simp only [bookLayoutSpreads, List.length_cons,
      bookLayoutSpreads_length total rest (i + 2)]
    omega

/-- Complete characterization of the pairing loop: the `k`-th emitted pair
takes its sides from positions `2k` and `2k+1` of the remaining pages and
carries the loop-counter-derived flags. -/
theorem bookLayoutSpreads_get? (total : ℕ) :
    ∀ (pages : List RenderedPage) (i k : ℕ),
      (bookLayoutSpreads total i pages).get? k =
        if 2 * k < pages.length then
          some { id := (i + 2 * k) / 2
                 left := pages.get? (2 * k)
                 right := pages.get? (2 * k + 1)
                 isCoverSpread := i + 2 * k = 0
                 isLastSpread := total ≤ i + 2 * k + 2 }
        else none
  | [], i, k => by simp [bookLayoutSpreads]
  | [l], i, k => by
    match k with
    | 0 => simp [bookLayoutSpreads]
    | k + 1 =>
      rw [if_neg (by simp)]
      rfl
  | l :: r :: rest, i, k => by
    match k with
    | 0 =>
      rw [if_pos (by simp)]
      simp [bookLayoutSpreads]
    | k + 1 =>
      show (bookLayoutSpreads total (i + 2) rest).get? k = _
      rw [bookLayoutSpreads_get? total rest (i + 2) k]
      have harith : i + 2 + 2 * k = i + 2 * (k + 1) := by ring
      by_cases h : 2 * k < rest.length
      · rw [if_pos h, if_pos (by simp only [List.length_cons]; omega)]
        have h2 : (l :: r :: rest).get? (2 * (k + 1)) = rest.get? (2 * k) := by
          have he : 2 * (k + 1) = 2 * k + 2 := by ring
          rw [he]
          rfl
        have h3 : (l :: r :: rest).get? (2 * (k + 1) + 1) =
            rest.get? (2 * k + 1) := by
          have he : 2 * (k + 1) + 1 = (2 * k + 1) + 2 := by ring
          rw [he]
          rfl
        rw [h2, h3, harith]
      · rw [if_neg h, if_neg (by simp only [List.length_cons]; omega)]

/-- C4: `createBookLayout` groups a flat list of N pages into consecutive
pairs without reordering, producing `⌈N/2⌉` pairs whose `k`-th pair holds
pages `2k` and `2k+1`; only the last pair may lack a right side, and does
so exactly when N is odd; `isCoverSpread` holds only for the first pair
and `isLastSpread` only for the final one; the empty input yields the
empty layout and a singleton input yields one left-only cover pair. -/
theorem createBookLayout_spec (pages : List RenderedPage) :
    ((createBookLayout pages).spreads.length = (pages.length + 1) / 2 ∧
      ∀ k, k < (pages.length + 1) / 2 →
        ∃ s, (createBookLayout pages).spreads.get? k = some s ∧
          s.left = pages.get? (2 * k) ∧
          s.right = pages.get? (2 * k + 1) ∧
          s.left ≠ none ∧
          (s.right = none ↔
            (k = (pages.length + 1) / 2 - 1 ∧ pages.length % 2 = 1)) ∧
          (s.isCoverSpread = true ↔ k = 0) ∧
          (s.isLastSpread = true ↔ k = (pages.length + 1) / 2 - 1)) ∧
    createBookLayout [] =
      { spreads := [], totalSpreads := 0, totalPages := 0, hasOddPages := false } ∧
    (∀ p : RenderedPage, createBookLayout [p] =
      { spreads := [{ id := 0, left := some p, right := none
                      isCoverSpread := true, isLastSpread := true }]
        totalSpreads := 1, totalPages := 1, hasOddPages := true }) := by
  refine ⟨⟨?_, ?_⟩, rfl, fun p => rfl⟩
  · match pages with
    | [] => simp [createBookLayout]
    | [p] => simp [createBookLayout]
    | p :: q :: rest =>
      show (bookLayoutSpreads (p :: q :: rest).length 0 (p :: q :: rest)).length = _
      rw [bookLayoutSpreads_length]
  · intro k hk
    match pages with
    | [] => simp at hk
    | [p] =>
      have hk0 : k = 0 := by simpa using hk
      subst hk0
      exact ⟨_, rfl, rfl, rfl, by simp, by simp, by simp, by simp⟩
    | p :: q :: rest =>
      have hsp : (createBookLayout (p :: q :: rest)).spreads =
          bookLayoutSpreads (p :: q :: rest).length 0 (p :: q :: rest) := rfl
      simp only [List.length_cons] at hk
      rw [hsp, bookLayoutSpreads_get? _ _ 0 k,
        if_pos (by simp only [List.length_cons]; omega)]
      refine ⟨_, rfl, rfl, rfl, ?_, ?_, ?_, ?_⟩
      · rw [ne_eq, List.get?_eq_none]
        simp only [List.length_cons, not_le]
        omega
      · rw [List.get?_eq_none]
        simp only [List.length_cons]
        omega
      · simp only [decide_eq_true_eq]
        omega
      · simp only [decide_eq_true_eq, List.length_cons]
        omega

/-- C4 witness: the five-page list yields three pairs; at `k = 2` (the
final pair) the characterization evaluates concretely: the left side is
present, the right side is empty since five is odd, and only the last
flag is set. -/
theorem createBookLayout_spec_witness :
    ((createBookLayout pages5).spreads.length = (pages5.length + 1) / 2) ∧
    (2 < (pages5.length + 1) / 2 ∧
      ∃ s, (createBookLayout pages5).spreads.get? 2 = some s ∧
        s.left = pages5.get? (2 * 2) ∧
        s.right = pages5.get? (2 * 2 + 1) ∧
        s.left ≠ none ∧
        (s.right = none ↔
          (2 = (pages5.length + 1) / 2 - 1 ∧ pages5.length % 2 = 1)) ∧
        (s.isCoverSpread = true ↔ 2 = 0) ∧
        (s.isLastSpread = true ↔ 2 = (pages5.length + 1) / 2 - 1)) :=
  ⟨(createBookLayout_spec pages5).1.1,
    by decide,
    (createBookLayout_spec pages5).1.2 2 (by decide)⟩

/-- One loop iteration appends a block of one entry (whole page) or two
entries (split halves), numbered consecutively from `acc.length + 1`; when
the page is not classified as a spread the block is a single unsplit
entry. -/
theorem processPDFStep_shape (opts : PDFProcessingOptions) (cr : ℚ) (i : ℕ)
    (page : PdfPage) (acc : List RenderedPage) :
    ∃ b : List RenderedPage,
      processPDFStep opts cr i page acc = acc ++ b ∧
      (b.length = 1 ∨ b.length = 2) ∧
      b.map RenderedPage.pageNumber = List.range' (acc.length + 1) b.length ∧
      (pipelineIsSpread opts cr (page.width / page.height) = false →
        ∃ e, b = [e] ∧ e.pageNumber = acc.length + 1 ∧ e.isLeftHalf = false ∧
          e.isRightHalf = false ∧ e.originalSpreadIndex = none) := by
  rw [processPDFStep]
  by_cases hs : pipelineIsSpread opts cr (page.width / page.height) = true
  · rw [if_pos hs]
    refine ⟨[{ pageNumber := acc.length + 1
               width := (splitSpreadPage page opts).1.width
               height := (splitSpreadPage page opts).1.height
               isLeftHalf := true, originalSpreadIndex := some i },
             { pageNumber := (acc.length + 1) + 1
               width := (splitSpreadPage page opts).2.width
               height := (splitSpreadPage page opts).2.height
               isRightHalf := true, originalSpreadIndex := some i }],
      ?_, Or.inr rfl, ?_, ?_⟩
    · simp [List.append_assoc]
    · simp [List.range']
    · intro hfalse
      rw [hs] at hfalse
      cases hfalse
  · rw [if_neg hs]
    refine ⟨[{ pageNumber := acc.length + 1
               width := (renderPageToCanvas page opts none).width
               height := (renderPageToCanvas page opts none).height }],
      rfl, Or.inl rfl, by simp [List.range'], ?_⟩
    intro _
    exact ⟨_, rfl, rfl, rfl, rfl, rfl⟩

/-- The loop only extends the accumulator, by one block per remaining
source page, each block holding one or two entries (always exactly one
when spread splitting is disabled). -/
theorem processPDFLoop_blocks (opts : PDFProcessingOptions) (cr : ℚ)
    (total : ℕ) :
    ∀ (rest : List PdfPage) (i : ℕ) (acc : List RenderedPage) (prog : List ℚ),
      ∃ blocks : List (List RenderedPage),
        (processPDFLoop opts cr total rest i acc prog).1 = acc ++ blocks.flatten ∧
        blocks.length = rest.length ∧
        (∀ b ∈ blocks, (b.length = 1 ∨ b.length = 2) ∧
          (opts.enableSpreadSplit = false → b.length = 1))
  | [], _, acc, _ => ⟨[], by simp [processPDFLoop], rfl, by simp⟩
  | page :: rest, i, acc, prog => by
    obtain ⟨b, hb, hlen, _, hnosplit⟩ := processPDFStep_shape opts cr i page acc
    obtain ⟨blocks, hbl, hbllen, hblall⟩ :=
      processPDFLoop_blocks opts cr total rest (i + 1)
        (processPDFStep opts cr i page acc)
        (prog ++ [(i : ℚ) / (total : ℚ)])
    refine ⟨b :: blocks, ?_, by simp [hbllen], ?_⟩
    · show (processPDFLoop opts cr total rest (i + 1)
        (processPDFStep opts cr i page acc)
        (prog ++ [(i : ℚ) / (total : ℚ)])).1 = _
      rw [hbl, hb]
      simp [List.append_assoc]
    · intro c hc
      rcases List.mem_cons.mp hc with hcb | hcbl
      · subst hcb
        refine ⟨hlen, fun hoff => ?_⟩
        have hsf : pipelineIsSpread opts cr (page.width / page.height) = false := by
          simp [pipelineIsSpread, hoff]
        obtain ⟨e, he, -⟩ := hnosplit hsf
        rw [he]
        rfl
      · exact hblall c hcbl

/-- The loop preserves consecutive page numbering of the accumulator. -/
theorem processPDFLoop_numbering (opts : PDFProcessingOptions) (cr : ℚ)
    (total : ℕ) :
    ∀ (rest : List PdfPage) (i : ℕ) (acc : List RenderedPage) (prog : List ℚ),
      acc.map RenderedPage.pageNumber = List.range' 1 acc.length →
      (processPDFLoop opts cr total rest i acc prog).1.map
          RenderedPage.pageNumber =
        List.range' 1 (processPDFLoop opts cr total rest i acc prog).1.length
  | [], _, acc, _ => fun h => h
  | page :: rest, i, acc, prog => by
    intro hacc
    obtain ⟨b, hb, _, hbnum, _⟩ := processPDFStep_shape opts cr i page acc
    show (processPDFLoop opts cr total rest (i + 1)
        (processPDFStep opts cr i page acc)
        (prog ++ [(i : ℚ) / (total : ℚ)])).1.map RenderedPage.pageNumber = _
    refine processPDFLoop_numbering opts cr total rest (i + 1) _ _ ?_
    rw [hb, List.map_append, hacc, hbnum, List.length_append]
    have h2 := List.range'_append 1 acc.length b.length 1
    simp only [one_mul] at h2
    rw [Nat.add_comm 1 acc.length] at h2
    rw [Nat.add_comm b.length acc.length] at h2
    exact h2

/-- The loop reports `i/totalPages, (i+1)/totalPages, ...` — one call per
remaining source page. -/
theorem processPDFLoop_progress (opts : PDFProcessingOptions) (cr : ℚ)
    (total : ℕ) :
    ∀ (rest : List PdfPage) (i : ℕ) (acc : List RenderedPage) (prog : List ℚ),
      (processPDFLoop opts cr total rest i acc prog).2 =
        prog ++ (List.range' i rest.length).map
          (fun k : ℕ => (k : ℚ) / (total : ℚ))
  | [], _, _, prog => by simp [processPDFLoop]
  | page :: rest, i, acc, prog => by
    show (processPDFLoop opts cr total rest (i + 1)
        (processPDFStep opts cr i page acc)
        (prog ++ [(i : ℚ) / (total : ℚ)])).2 = _
    rw [processPDFLoop_progress opts cr total rest (i + 1) _ _]
    simp only [List.length_cons]
    rw [List.range'_succ, List.map_cons, List.append_assoc]
    rfl

/-- A list of blocks of length one flattens to one entry per block. -/
theorem length_flatten_of_singletons :
    ∀ blocks : List (List RenderedPage),
      (∀ b ∈ blocks, b.length = 1) → blocks.flatten.length = blocks.length
  | [], _ => rfl
  | b :: blocks, h => by
    have hb := h b (List.mem_cons_self b blocks)
    have ih := length_flatten_of_singletons blocks
      (fun c hc => h c (List.mem_cons_of_mem b hc))
    simp only [List.flatten_cons, List.length_append, List.length_cons, ih, hb]
    omega

/-- C1: `processPDF` output page numbers form the contiguous run `1..M` in
append order; every source page contributes a block of exactly one (not
split) or exactly two (split) entries; and with spread splitting disabled
the output of an N-page document has length N and page numbers `1..N`. -/
theorem processPDF_output_invariants (doc : List PdfPage)
    (opts : PDFProcessingOptions) (pages : List RenderedPage)
    (progress : List ℚ)
    (h : processPDF doc opts = some (pages, progress)) :
    pages.map RenderedPage.pageNumber = List.range' 1 pages.length ∧
    (∃ blocks : List (List RenderedPage), pages = blocks.flatten ∧
      blocks.length = doc.length ∧
      ∀ b ∈ blocks, b.length = 1 ∨ b.length = 2) ∧
    (opts.enableSpreadSplit = false →
      pages.length = doc.length ∧
      pages.map RenderedPage.pageNumber = List.range' 1 doc.length) := by
  cases doc with
  | nil =>
    rw [processPDF] at h
    cases h
  | cons firstPage rest =>
    rw [processPDF] at h
    injection h with h'
    have hpages : pages = (processPDFLoop opts
        (firstPage.width / firstPage.height) (firstPage :: rest).length
        (firstPage :: rest) 1 [] []).1 := by rw [h']
    obtain ⟨blocks, hbl, hbllen, hblall⟩ :=
      processPDFLoop_blocks opts (firstPage.width / firstPage.height)
        (firstPage :: rest).length (firstPage :: rest) 1 [] []
    rw [← hpages] at hbl
    have hnum : pages.map RenderedPage.pageNumber =
        List.range' 1 pages.length := by
      rw [hpages]
      exact processPDFLoop_numbering opts (firstPage.width / firstPage.height)
        (firstPage :: rest).length (firstPage :: rest) 1 [] [] rfl
    refine ⟨hnum, ⟨blocks, by simpa using hbl, hbllen, fun b hb => (hblall b hb).1⟩, ?_⟩
    intro hoff
    have hall1 : ∀ b ∈ blocks, b.length = 1 :=
      fun b hb => (hblall b hb).2 hoff
    have hlen : pages.length = (firstPage :: rest).length := by
      rw [hbl]
      simp [length_flatten_of_singletons blocks hall1, hbllen]
    exact ⟨hlen, by rw [hnum, hlen]⟩

/-- C1 witness: a two-page document processed with spread splitting
disabled yields two entries numbered 1, 2 in one block each. -/
theorem processPDF_output_invariants_witness :
    processPDF docW optsW = some (pagesW, progW) ∧
    (pagesW.map RenderedPage.pageNumber = List.range' 1 pagesW.length ∧
      (∃ blocks : List (List RenderedPage), pagesW = blocks.flatten ∧
        blocks.length = docW.length ∧
        ∀ b ∈ blocks, b.length = 1 ∨ b.length = 2) ∧
      (optsW.enableSpreadSplit = false →
        pagesW.length = docW.length ∧
        pagesW.map RenderedPage.pageNumber = List.range' 1 docW.length)) :=
  have hrun : processPDF docW optsW = some (pagesW, progW) := by
    norm_num [processPDF, processPDFLoop, processPDFStep, pipelineIsSpread,
      renderPageToCanvas, docW, optsW, pagesW, progW]
  ⟨hrun, processPDF_output_invariants docW optsW pagesW progW hrun⟩

/-- Dividing an increasing run of naturals by a fixed non-negative
denominator yields a non-decreasing sequence. -/
theorem chain'_range'_div (d : ℚ) (hd : 0 ≤ d) :
    ∀ (n s : ℕ), List.Chain' (· ≤ ·)
      ((List.range' s n).map (fun k : ℕ => (k : ℚ) / d))
  | 0, _ => by simp
  | 1, _ => by simp
  | n + 2, s => by
    rw [List.range'_succ, List.range'_succ, List.map_cons, List.map_cons]
    rw [List.chain'_cons]
    constructor
    · rw [div_eq_mul_inv, div_eq_mul_inv]
      refine mul_le_mul_of_nonneg_right ?_ (inv_nonneg.mpr hd)
      push_cast
      linarith
    · have hfold : ((s + 1 : ℕ) : ℚ) / d ::
          (List.range' (s + 1 + 1) n).map (fun k : ℕ => (k : ℚ) / d) =
          (List.range' (s + 1) (n + 1)).map (fun k : ℕ => (k : ℚ) / d) := by
        rw [List.range'_succ, List.map_cons]
      rw [hfold]
      exact chain'_range'_div d hd (n + 1) (s + 1)

/-- C5: the progress callback is invoked exactly once per source page with
value `processedCount / pageCount`; the reported sequence is
`1/N, 2/N, ..., N/N`, monotonically non-decreasing, ending exactly at 1. -/
theorem processPDF_progress_spec (doc : List PdfPage)
    (opts : PDFProcessingOptions) (pages : List RenderedPage)
    (progress : List ℚ)
    (h : processPDF doc opts = some (pages, progress)) :
    progress = (List.range' 1 doc.length).map
      (fun k : ℕ => (k : ℚ) / (doc.length : ℚ)) ∧
    progress.length = doc.length ∧
    List.Chain' (· ≤ ·) progress ∧
    progress.getLast? = some 1 := by
  cases doc with
  | nil =>
    rw [processPDF] at h
    cases h
  | cons firstPage rest =>
    rw [processPDF] at h
    injection h with h'
    have hprog : progress = (processPDFLoop opts
        (firstPage.width / firstPage.height) (firstPage :: rest).length
        (firstPage :: rest) 1 [] []).2 := by rw [h']
    have hform : progress = (List.range' 1 (firstPage :: rest).length).map
        (fun k : ℕ => (k : ℚ) / ((firstPage :: rest).length : ℚ)) := by
      rw [hprog, processPDFLoop_progress]
      simp
    refine ⟨hform, ?_, ?_, ?_⟩
    · rw [hform]
      simp [List.length_range']
    · rw [hform]
      exact chain'_range'_div _ (by positivity) _ _
    · rw [hform]
      have hsplit : List.range' 1 (firstPage :: rest).length =
          List.range' 1 rest.length ++ [1 + 1 * rest.length] := by
        rw [← List.range'_concat]
        simp
      rw [hsplit, List.map_append, List.map_cons, List.map_nil,
        List.getLast?_concat]
      have hone : ((1 + 1 * rest.length : ℕ) : ℚ) /
          (((firstPage :: rest).length : ℕ) : ℚ) = 1 := by
        rw [div_eq_one_iff_eq (Nat.cast_ne_zero.mpr (by simp))]
        simp [List.length_cons]
        ring
      rw [hone]

/-- C5 witness: the two-page run reports exactly `[1/2, 2/2]`, one call
per page, non-decreasing, ending at 1. -/
theorem processPDF_progress_spec_witness :
    processPDF docW optsW = some (pagesW, progW) ∧
    (progW = (List.range' 1 docW.length).map
        (fun k : ℕ => (k : ℚ) / (docW.length : ℚ)) ∧
      progW.length = docW.length ∧
      List.Chain' (· ≤ ·) progW ∧
      progW.getLast? = some 1) :=
  have hrun : processPDF docW optsW = some (pagesW, progW) := by
    norm_num [processPDF, processPDFLoop, processPDFStep, pipelineIsSpread,
      renderPageToCanvas, docW, optsW, pagesW, progW]
  ⟨hrun, processPDF_progress_spec docW optsW pagesW progW hrun⟩

/-- A positive ratio compared against itself never passes the pipeline's
spread test: `r ≥ 1.8·r` and `r ≥ 1.5·r` both fail for `r > 0`. -/
theorem pipelineIsSpread_self_false (opts : PDFProcessingOptions) (r : ℚ)
    (hr : 0 < r) : pipelineIsSpread opts r r = false := by
  have h18 : ¬ (r * (18/10) ≤ r) := by nlinarith
  have h15 : ¬ (r * (15/10) ≤ r) := by nlinarith
  simp [pipelineIsSpread, h18, h15]

/-- C7: under the pipeline's classification the first source page is
compared against its own aspect ratio and can never be classified as a
spread; for any document whose first page has positive width and height
and any configuration, page 1 contributes exactly one unsplit entry, at
the head of the output, numbered 1. -/
theorem processPDF_first_page_unsplit :
    (∀ (opts : PDFProcessingOptions) (r : ℚ), 0 < r →
      pipelineIsSpread opts r r = false) ∧
    (∀ (firstPage : PdfPage) (rest : List PdfPage)
      (opts : PDFProcessingOptions) (pages : List RenderedPage)
      (progress : List ℚ),
      0 < firstPage.width → 0 < firstPage.height →
      processPDF (firstPage :: rest) opts = some (pages, progress) →
      ∃ (e : RenderedPage) (blocks : List (List RenderedPage)),
        pages = e :: blocks.flatten ∧
        blocks.length = rest.length ∧
        e.pageNumber = 1 ∧ e.isLeftHalf = false ∧ e.isRightHalf = false ∧
        e.originalSpreadIndex = none) := by
  refine ⟨fun opts r hr => pipelineIsSpread_self_false opts r hr, ?_⟩
  intro firstPage rest opts pages progress hw hh h
  rw [processPDF] at h
  injection h with h'
  have hpages : pages = (processPDFLoop opts
      (firstPage.width / firstPage.height) (firstPage :: rest).length
      (firstPage :: rest) 1 [] []).1 := by rw [h']
  have hcr : (0:ℚ) < firstPage.width / firstPage.height := div_pos hw hh
  have hsf := pipelineIsSpread_self_false opts
    (firstPage.width / firstPage.height) hcr
  obtain ⟨b, hb, -, -, hnosplit⟩ := processPDFStep_shape opts
    (firstPage.width / firstPage.height) 1 firstPage []
  obtain ⟨e, he, hnum, hleft, hright, horig⟩ := hnosplit hsf
  obtain ⟨blocks, hbl, hbllen, -⟩ :=
    processPDFLoop_blocks opts (firstPage.width / firstPage.height)
      (firstPage :: rest).length rest 2
      (processPDFStep opts (firstPage.width / firstPage.height) 1 firstPage [])
      ([] ++ [((1:ℕ) : ℚ) / (((firstPage :: rest).length : ℕ) : ℚ)])
  refine ⟨e, blocks, ?_, hbllen, by simpa using hnum, hleft, hright, horig⟩
  rw [hpages]
  show (processPDFLoop opts (firstPage.width / firstPage.height)
      (firstPage :: rest).length rest (1 + 1)
      (processPDFStep opts (firstPage.width / firstPage.height) 1 firstPage [])
      ([] ++ [((1:ℕ) : ℚ) / (((firstPage :: rest).length : ℕ) : ℚ)])).1 = _
  rw [hbl, hb, he]
  rfl

/-- C7 witness: a document whose first page is itself double-wide (14×10,
ratio 1.4 above the 1.2 threshold) still contributes a single unsplit
first entry, because it is measured against its own ratio. -/
theorem processPDF_first_page_unsplit_witness :
    ((0:ℚ) < 14 ∧ (0:ℚ) < 10) ∧
    processPDF [⟨14, 10⟩] optsS = some
      ([{ pageNumber := 1, width := 14, height := 10 }], [1]) ∧
    (∃ (e : RenderedPage) (blocks : List (List RenderedPage)),
      [{ pageNumber := 1, width := 14, height := 10 }] = e :: blocks.flatten ∧
      blocks.length = ([] : List PdfPage).length ∧
      e.pageNumber = 1 ∧ e.isLeftHalf = false ∧ e.isRightHalf = false ∧
      e.originalSpreadIndex = none) :=
  have hrun : processPDF [⟨14, 10⟩] optsS = some
      ([{ pageNumber := 1, width := 14, height := 10 }], [1]) := by
    norm_num [processPDF, processPDFLoop, processPDFStep, pipelineIsSpread,
      renderPageToCanvas, optsS]
  ⟨⟨by norm_num, by norm_num⟩, hrun,
    processPDF_first_page_unsplit.2 ⟨14, 10⟩ [] optsS
      [{ pageNumber := 1, width := 14, height := 10 }] [1]
      (by norm_num) (by norm_num) hrun⟩
